import Mathlib

/-!
# Robomongo `MongoClient`: a shallow embedding

Source: `src/robomongo/core/mongodb/MongoClient.cpp`.

`MongoClient` is a thin layer over one `mongo::DBClientBase` connection.  The
connection is not code of this repository; it is a record of primitives over an
abstract connection state.  Every primitive the client invokes is appended to a
call log, so that "which primitive was issued, with which arguments, in which
order" is a statement about the log, and "what the database looks like
afterwards" a statement about the connection state.

Strings (`QString`, `std::string`) are `String` (the text they hold), the
conversions between the two are the identity, and `QString` comparison is the
comparison of the UTF-16 code units of the text.  C++ `int` values that are only
compared and passed on are `Int`.
-/

namespace Robomongo

/-! ## BSON -/

/-- Values a BSON field can carry.  Types the client never inspects are kept as
their type byte and payload. -/
inductive BSONValue where
  | str (s : String)
  | num (n : Int)
  | bool (b : Bool)
  | null
  | other (typeByte : Nat) (payload : List Nat)
deriving DecidableEq, Repr

/-- One field (name and value) stored in a BSON object. -/
structure BSONField where
  fieldName : String
  value : BSONValue
deriving DecidableEq, Repr

/-- A `mongo::BSONObj`: its fields, in storage order. -/
abbrev BSONObj := List BSONField

/-- A `mongo::BSONElement` as handed out by `getField`: either a field of the
object or the end-of-object element (`eoo()` is true). -/
inductive BSONElement where
  | eoo
  | field (f : BSONField)
deriving DecidableEq, Repr

/-- `BSONObj::getField(name)`: the first field with that name, the end-of-object
element when there is none. -/
def BSONObj.getField : BSONObj → String → BSONElement
  | [], _ => BSONElement.eoo
  | f :: rest, name => if f.fieldName = name then BSONElement.field f else BSONObj.getField rest name

/-- `BSONObj::nFields()`. -/
def BSONObj.nFields (o : BSONObj) : Nat := o.length

/-- `BSONObj::isEmpty()`. -/
def BSONObj.isEmpty (o : BSONObj) : Bool := o.nFields == 0

/-- A `mongo::Query`: the filter object it wraps. -/
structure Query where
  obj : BSONObj
deriving DecidableEq, Repr

/-- The error kinds of the specification (section 7) under which the exceptions
that reach the caller of `MongoClient` are classified. -/
inductive ErrorKind where
  | invalidArgument
  | parseError
  | connectionFailure
  | commandFailure
deriving DecidableEq, Repr

/-- An exception that leaves a library routine called by the client: its kind and
its message.  `MongoClient.cpp` itself contains no `throw`; everything the
libraries raise derives from `std::exception`. -/
structure Exception where
  kind : ErrorKind
  what : String
deriving DecidableEq, Repr

/-- The BSON library routine the client calls whose result is fixed outside
`MongoClient.cpp`: `mongo::fromjson`, which raises on malformed text. -/
structure BsonLib where
  fromjson : String → Except Exception BSONObj

/-- A `mongo::BSONObjBuilder`: the fields appended so far. -/
abbrev BSONObjBuilder := List BSONField

/-- `BSONObjBuilder::append(name, value)` and `append(element)` for an element
that is a field. -/
def BSONObjBuilder.append (b : BSONObjBuilder) (f : BSONField) : BSONObjBuilder := b ++ [f]

/-- Modelled from the spec: `BSONObjBuilder::append(const BSONElement&)` (the BSON
library is not part of the sources at hand) for an element obtained from
`getField`.  A field is appended.  The end-of-object element cannot be appended:
the builder asserts `!e.eoo()` and raises, which is the failure the specification
names `InvalidArgument` (missing identifier field). -/
def BSONObjBuilder.appendElement (b : BSONObjBuilder) :
    BSONElement → Except Exception BSONObjBuilder
  | BSONElement.field f => Except.ok (BSONObjBuilder.append b f)
  | BSONElement.eoo => Except.error ⟨ErrorKind.invalidArgument, "assertion !e.eoo()"⟩

/-- `BSONObjBuilder::obj()`. -/
def BSONObjBuilder.obj (b : BSONObjBuilder) : BSONObj := b

/-! ## Domain types declared in headers outside this file -/

/-- Modelled from the spec: `MongoNamespace` (MongoNamespace.h is not part of the
sources at hand): a database name and a collection name whose string form is
`database.collection`.  The client builds its namespaces with the two-argument
constructor, from the name parts it is handed. -/
structure MongoNamespace where
  databaseName : String
  collectionName : String
deriving DecidableEq, Repr

/-- String form of a namespace, `database.collection`. -/
def MongoNamespace.toString (ns : MongoNamespace) : String :=
  ns.databaseName ++ "." ++ ns.collectionName

/-- `MongoCollectionInfo`, as far as the client uses it: `ns()`. -/
structure MongoCollectionInfo where
  ns : MongoNamespace
deriving DecidableEq, Repr

/-- `MongoDocument`: owns a copy of a BSON object. -/
structure MongoDocument where
  bsonObj : BSONObj
deriving DecidableEq, Repr

/-- `MongoQueryInfo`, the fields `MongoClient::query` reads. -/
structure MongoQueryInfo where
  databaseName : String
  collectionName : String
  query : Query
  fields : BSONObj
  limit : Int
  skip : Int
  options : Int
  batchSize : Int
deriving DecidableEq, Repr

/-- The parts of `MongoFunction` (MongoFunction.h, not part of the sources at
hand) the client uses: the constructor from a raw document, which may raise,
`name()` and `toBson()`. -/
structure MongoFunctionOps (F : Type) where
  construct : BSONObj → Except Exception F
  name : F → String
  toBson : F → BSONObj

/-! ## The connection -/

/-- One invocation of a connection primitive, with its arguments. -/
inductive Call where
  | getCollectionNames (db : String)
  | getDatabaseNames
  | query (ns : String) (q : Query) (limit skip : Int) (fields : Option BSONObj)
      (options batchSize : Int)
  | findOne (ns : String) (q : Query)
  | «exists» (ns : String)
  | getLastError
  | insert (ns : String) (obj : BSONObj)
  | update (ns : String) (q : Query) (obj : BSONObj) (upsert multi : Bool)
  | remove (ns : String) (q : Query) (justOne : Bool)
  | ensureIndex (ns : String) (keys : BSONObj) (unique : Bool) (name : String)
      (cache background : Bool)
  | dropIndex (ns : String) (name : String)
  | dropCollection (ns : String)
deriving DecidableEq, Repr

/-- The primitives of `mongo::DBClientBase` used by the client, over a connection
state `σ`.  A cursor is the finite sequence of documents it yields.  The
primitives describe a call that goes through; write errors are reported through
`getLastError`.  A call that throws instead is described by `Faults`. -/
structure DBClientBase (σ : Type) where
  getCollectionNames : σ → String → List String
  getDatabaseNames : σ → List String
  query : σ → String → Query → Int → Int → Option BSONObj → Int → Int → List BSONObj
  findOne : σ → String → Query → BSONObj
  «exists» : σ → String → Bool
  getLastError : σ → String
  insert : σ → String → BSONObj → σ
  update : σ → String → Query → BSONObj → Bool → Bool → σ
  remove : σ → String → Query → Bool → σ
  ensureIndex : σ → String → BSONObj → Bool → String → Bool → Bool → σ
  dropIndex : σ → String → String → σ
  dropCollection : σ → String → σ

/-- What can go wrong on the wire: `faults st call` is the exception the
connection throws when `call` is issued in state `st` (a lost socket, a refused
command), `none` when the call goes through. -/
abbrev Faults (σ : Type) := σ → Call → Option Exception

/-- The handle `_dbclient` at one moment: the connection state and the calls
issued so far, oldest first. -/
structure Conn (σ : Type) where
  state : σ
  log : List Call
deriving DecidableEq

/-- Record a call and move the connection to a new state. -/
def Conn.step {σ : Type} (s : Conn σ) (c : Call) (st : σ) : Conn σ :=
  { state := st, log := s.log ++ [c] }

/-- Record a call that only reads. -/
def Conn.read {σ : Type} (s : Conn σ) (c : Call) : Conn σ :=
  { state := s.state, log := s.log ++ [c] }

/-! ## `MongoClient` -/

namespace MongoClient

/-- Outcome of a client operation: the value returned or the exception that left
the function, and the connection afterwards. -/
abbrev Result (σ α : Type) := Except Exception α × Conn σ

/-- The loop `for (i = dbs.begin(); i != dbs.end(); ++i) stringList.append(*i)`. -/
def appendNames : List String → List String → List String
  | [], stringList => stringList
  | i :: rest, stringList => appendNames rest (stringList ++ [i])

/-- UTF-16 code units of one character: the code point itself below `0x10000`, a
surrogate pair from there on. -/
def utf16Char (ch : Char) : List Nat :=
  if ch.toNat < 0x10000 then [ch.toNat]
  else [0xD800 + (ch.toNat - 0x10000) / 0x400, 0xDC00 + (ch.toNat - 0x10000) % 0x400]

/-- UTF-16 code units of a text, the representation a `QString` holds. -/
def utf16 : List Char → List Nat
  | [] => []
  | ch :: rest => utf16Char ch ++ utf16 rest

/-- `QString::operator<` turned into "does not sort after": the two strings are
compared code unit by code unit, by numeric value; a proper prefix sorts first. -/
def unitsLe : List Nat → List Nat → Bool
  | [], _ => true
  | _ :: _, [] => false
  | x :: xs, y :: ys => if x < y then true else if y < x then false else unitsLe xs ys

/-- `a` does not sort after `b` as `QString`s. -/
def qstringLe (a b : String) : Prop := unitsLe (utf16 a.toList) (utf16 b.toList) = true

instance qstringLe.decidable : DecidableRel qstringLe :=
  fun a b => inferInstanceAs (Decidable (unitsLe (utf16 a.toList) (utf16 b.toList) = true))

/-- `QStringList::sort()`: ascending order of `QString::operator<`. -/
def sort (stringList : List String) : List String :=
  stringList.insertionSort qstringLe

/-- `MongoClient::getCollectionNames`. -/
def getCollectionNames {σ : Type} (c : DBClientBase σ) (s : Conn σ) (dbname : String) :
    List String × Conn σ :=
  let dbs := c.getCollectionNames s.state dbname
  let stringList := appendNames dbs []
  (sort stringList, s.read (Call.getCollectionNames dbname))

/-- `MongoClient::getDatabaseNames`. -/
def getDatabaseNames {σ : Type} (c : DBClientBase σ) (s : Conn σ) : List String × Conn σ :=
  let dbs := c.getDatabaseNames s.state
  let dbNames := appendNames dbs []
  (sort dbNames, s.read Call.getDatabaseNames)

/-- The cursor loop of `MongoClient::getFunctions`: construct a function from each
document, append it, and skip the document when the constructor raises. -/
def getFunctionsLoop {F : Type} (ops : MongoFunctionOps F) : List BSONObj → List F → List F
  | [], functions => functions
  | bsonObj :: rest, functions =>
    match ops.construct bsonObj with
    | Except.ok user => getFunctionsLoop ops rest (functions ++ [user])
    | Except.error _ => getFunctionsLoop ops rest functions

/-- What the `try`/`catch` of `getFunctions` keeps of one document: the function
when the constructor returns, nothing when it raises. -/
def constructed {F : Type} (ops : MongoFunctionOps F) (o : BSONObj) : Option F :=
  match ops.construct o with
  | Except.ok f => some f
  | Except.error _ => none

/-- `MongoClient::getFunctions`. -/
def getFunctions {σ F : Type} (ops : MongoFunctionOps F) (c : DBClientBase σ) (s : Conn σ)
    (dbName : String) : List F × Conn σ :=
  let ns : MongoNamespace := ⟨dbName, "system.js"⟩
  let cursor := c.query s.state ns.toString ⟨[]⟩ 0 0 none 0 0
  (getFunctionsLoop ops cursor [], s.read (Call.query ns.toString ⟨[]⟩ 0 0 none 0 0))

/-- `MongoClient::ensureIndex`. -/
def ensureIndex {σ : Type} (lib : BsonLib) (c : DBClientBase σ) (s : Conn σ)
    (collection : MongoCollectionInfo) (name request : String)
    (unique backGround dropDuplicates : Bool) : Result σ Unit :=
  match lib.fromjson request with
  | Except.error e => (Except.error e, s)
  | Except.ok obj =>
    (Except.ok (),
      s.step (Call.ensureIndex collection.ns.toString obj unique name true backGround)
        (c.ensureIndex s.state collection.ns.toString obj unique name true backGround))

/-- The iterator loop of `MongoClient::renameIndexFromCollection`: copy every
element, except that an element whose field name is `name` is replaced by the
string `newIndexName` under the name `name`. -/
def renameIndexLoop (newIndexNameStd : String) : List BSONField → BSONObjBuilder → BSONObjBuilder
  | [], builder => builder
  | element :: rest, builder =>
    if element.fieldName = "name" then
      renameIndexLoop newIndexNameStd rest
        (builder.append ⟨"name", BSONValue.str newIndexNameStd⟩)
    else
      renameIndexLoop newIndexNameStd rest (builder.append element)

/-- `MongoClient::renameIndexFromCollection`. -/
def renameIndexFromCollection {σ : Type} (c : DBClientBase σ) (s : Conn σ)
    (collection : MongoCollectionInfo) (oldIndexName newIndexName : String) : Result σ Unit :=
  let ns : MongoNamespace := ⟨collection.ns.databaseName, "system.indexes"⟩
  let systemIndexesNs := ns.toString
  let collectionNs := collection.ns.toString
  let query : BSONObj := (BSONObjBuilder.append [] ⟨"name", BSONValue.str oldIndexName⟩).obj
  let indexBson := c.findOne s.state systemIndexesNs ⟨query⟩
  let s1 := s.read (Call.findOne systemIndexesNs ⟨query⟩)
  if indexBson.isEmpty then
    (Except.ok (), s1)
  else
    let builder := renameIndexLoop newIndexName indexBson []
    let s2 := s1.step (Call.dropIndex collectionNs oldIndexName)
      (c.dropIndex s1.state collectionNs oldIndexName)
    let s3 := s2.step (Call.insert systemIndexesNs builder.obj)
      (c.insert s2.state systemIndexesNs builder.obj)
    (Except.ok (), s3)

/-- `MongoClient::deleteIndexFromCollection`.  The function is declared `bool`; its
body is the `dropIndex` call followed by a comment block, and the only
`return true;` stands inside that comment.  Control reaches the closing brace
without a `return`, so no value is returned: `none`. -/
def deleteIndexFromCollection {σ : Type} (c : DBClientBase σ) (s : Conn σ)
    (collection : MongoCollectionInfo) (indexName : String) : Result σ (Option Bool) :=
  (Except.ok none,
    s.step (Call.dropIndex collection.ns.toString indexName)
      (c.dropIndex s.state collection.ns.toString indexName))

/-- `MongoClient::createFunction`. -/
def createFunction {σ F : Type} (ops : MongoFunctionOps F) (c : DBClientBase σ) (s : Conn σ)
    (dbName : String) (fn : F) (existingFunctionName : String) : Result σ Unit :=
  let ns : MongoNamespace := ⟨dbName, "system.js"⟩
  let obj := ops.toBson fn
  if existingFunctionName.isEmpty then
    (Except.ok (), s.step (Call.insert ns.toString obj) (c.insert s.state ns.toString obj))
  else
    let name := ops.name fn
    if existingFunctionName = name then
      let bsonQuery : BSONObj := (BSONObjBuilder.append [] ⟨"_id", BSONValue.str name⟩).obj
      (Except.ok (),
        s.step (Call.update ns.toString ⟨bsonQuery⟩ obj true false)
          (c.update s.state ns.toString ⟨bsonQuery⟩ obj true false))
    else
      let s1 := s.step (Call.insert ns.toString obj) (c.insert s.state ns.toString obj)
      let res := c.getLastError s1.state
      let s2 := s1.read Call.getLastError
      if res.isEmpty then
        let bsonQuery : BSONObj :=
          (BSONObjBuilder.append [] ⟨"_id", BSONValue.str existingFunctionName⟩).obj
        (Except.ok (),
          s2.step (Call.remove ns.toString ⟨bsonQuery⟩ true)
            (c.remove s2.state ns.toString ⟨bsonQuery⟩ true))
      else
        (Except.ok (), s2)

/-- `MongoClient::createDatabase`, over a connection that may fail: an exception
thrown by `exists`, `insert` or `dropCollection` leaves the function at that call
(the call is on the log, the connection state is the one before it). -/
def createDatabase {σ : Type} (c : DBClientBase σ) (faults : Faults σ) (s : Conn σ)
    (dbName : String) : Result σ Unit :=
  let ns : MongoNamespace := ⟨dbName, "temp"⟩
  let s1 := s.read (Call.exists ns.toString)
  match faults s.state (Call.exists ns.toString) with
  | some e => (Except.error e, s1)
  | none =>
    if c.exists s.state ns.toString then
      (Except.ok (), s1)
    else
      let obj : BSONObj := (BSONObjBuilder.append [] ⟨"_id", BSONValue.str "temp"⟩).obj
      match faults s1.state (Call.insert ns.toString obj) with
      | some e => (Except.error e, s1.read (Call.insert ns.toString obj))
      | none =>
        let s2 := s1.step (Call.insert ns.toString obj) (c.insert s1.state ns.toString obj)
        match faults s2.state (Call.dropCollection ns.toString) with
        | some e => (Except.error e, s2.read (Call.dropCollection ns.toString))
        | none =>
          let s3 := s2.step (Call.dropCollection ns.toString)
            (c.dropCollection s2.state ns.toString)
          (Except.ok (), s3)

/-- `MongoClient::saveDocument`. -/
def saveDocument {σ : Type} (c : DBClientBase σ) (s : Conn σ)
    (obj : BSONObj) (db collection : String) : Result σ Unit :=
  let ns : MongoNamespace := ⟨db, collection⟩
  let id := obj.getField "_id"
  match BSONObjBuilder.appendElement [] id with
  | Except.error e => (Except.error e, s)
  | Except.ok builder =>
    let bsonQuery := builder.obj
    (Except.ok (),
      s.step (Call.update ns.toString ⟨bsonQuery⟩ obj true false)
        (c.update s.state ns.toString ⟨bsonQuery⟩ obj true false))

/-- The cursor loop of `MongoClient::query`: wrap an owned copy of every document
and append it. -/
def queryLoop : List BSONObj → List MongoDocument → List MongoDocument
  | [], docs => docs
  | bsonObj :: rest, docs => queryLoop rest (docs ++ [⟨bsonObj⟩])

/-- The limit `MongoClient::query` hands to the connection:
`(info.limit == 0 || info.limit > 51) ? 50 : info.limit`. -/
def queryLimit (info : MongoQueryInfo) : Int :=
  if info.limit = 0 ∨ info.limit > 51 then 50 else info.limit

/-- `MongoClient::query`. -/
def query {σ : Type} (c : DBClientBase σ) (s : Conn σ) (info : MongoQueryInfo) :
    List MongoDocument × Conn σ :=
  let ns : MongoNamespace := ⟨info.databaseName, info.collectionName⟩
  let limit := queryLimit info
  let fields : Option BSONObj := if info.fields.nFields ≠ 0 then some info.fields else none
  let cursor := c.query s.state ns.toString info.query limit info.skip fields info.options
    info.batchSize
  (queryLoop cursor [],
    s.read (Call.query ns.toString info.query limit info.skip fields info.options
      info.batchSize))

end MongoClient

/-! ## A reference connection

A small in-memory database that implements the connection primitives.  It
serves as a concrete connection on which the statements below are exercised. -/

/-- State of the in-memory database: the collections by namespace, each with its
documents in insertion order, and the error text of the last write. -/
structure MemState where
  colls : List (String × List BSONObj)
  lastError : String
deriving DecidableEq, Repr

namespace MemState

/-- Documents of the collection `ns` (none when the collection does not exist). -/
def docsOf : List (String × List BSONObj) → String → List BSONObj
  | [], _ => []
  | p :: rest, ns => if p.1 = ns then p.2 else docsOf rest ns

/-- Replace the documents of `ns`, creating the collection when it is missing. -/
def setDocs : List (String × List BSONObj) → String → List BSONObj →
    List (String × List BSONObj)
  | [], ns, docs => [(ns, docs)]
  | p :: rest, ns, docs => if p.1 = ns then (ns, docs) :: rest else p :: setDocs rest ns docs

/-- A document matches a filter when it has every field of the filter, with the
same value. -/
def «matches» (q : Query) (d : BSONObj) : Bool :=
  q.obj.all (fun f => decide (d.getField f.fieldName = BSONElement.field f))

/-- Replace the first document matching `q` by `obj`; `none` when none matches. -/
def replaceFirst (q : Query) (obj : BSONObj) : List BSONObj → Option (List BSONObj)
  | [] => none
  | d :: rest =>
    if «matches» q d then some (obj :: rest)
    else (replaceFirst q obj rest).map (fun r => d :: r)

/-- Remove the first document matching `q`. -/
def removeFirst (q : Query) : List BSONObj → List BSONObj
  | [] => []
  | d :: rest => if «matches» q d then rest else d :: removeFirst q rest

/-- Database part of a namespace string. -/
def nsToDatabase (ns : String) : String := ns.takeWhile (fun ch => ch ≠ '.')

end MemState

open MemState in
/-- The in-memory connection. -/
def memClient : DBClientBase MemState where
  getCollectionNames := fun st db =>
    (st.colls.map Prod.fst).filter (fun ns => decide (nsToDatabase ns = db))
  getDatabaseNames := fun st => (st.colls.map (fun p => nsToDatabase p.1)).dedup
  query := fun st ns q limit skip _ _ _ =>
    let found := ((docsOf st.colls ns).filter («matches» q)).drop skip.toNat
    if limit = 0 then found else found.take limit.natAbs
  findOne := fun st ns q => ((docsOf st.colls ns).find? («matches» q)).getD []
  «exists» := fun st ns => st.colls.any (fun p => decide (p.1 = ns))
  getLastError := fun st => st.lastError
  insert := fun st ns obj =>
    if obj.getField "_id" ≠ BSONElement.eoo ∧
        (docsOf st.colls ns).any (fun d => decide (d.getField "_id" = obj.getField "_id")) then
      ⟨st.colls, "E11000 duplicate key error"⟩
    else
      ⟨setDocs st.colls ns (docsOf st.colls ns ++ [obj]), ""⟩
  update := fun st ns q obj upsert _ =>
    match replaceFirst q obj (docsOf st.colls ns) with
    | some docs => ⟨setDocs st.colls ns docs, ""⟩
    | none =>
      if upsert then ⟨setDocs st.colls ns (docsOf st.colls ns ++ [obj]), ""⟩
      else ⟨st.colls, ""⟩
  remove := fun st ns q justOne =>
    if justOne then ⟨setDocs st.colls ns (removeFirst q (docsOf st.colls ns)), ""⟩
    else ⟨setDocs st.colls ns ((docsOf st.colls ns).filter (fun d => !«matches» q d)), ""⟩
  ensureIndex := fun st ns keys _ name _ _ =>
    let sys := nsToDatabase ns ++ ".system.indexes"
    let q : Query := ⟨[⟨"name", BSONValue.str name⟩, ⟨"ns", BSONValue.str ns⟩]⟩
    if (docsOf st.colls sys).any («matches» q) then st
    else ⟨setDocs st.colls sys (docsOf st.colls sys ++ [q.obj ++ keys]), ""⟩
  dropIndex := fun st ns name =>
    let sys := nsToDatabase ns ++ ".system.indexes"
    let q : Query := ⟨[⟨"name", BSONValue.str name⟩, ⟨"ns", BSONValue.str ns⟩]⟩
    ⟨setDocs st.colls sys (removeFirst q (docsOf st.colls sys)), st.lastError⟩
  dropCollection := fun st ns =>
    ⟨st.colls.filter (fun p => !decide (p.1 = ns)), st.lastError⟩

end Robomongo

/-! ## Concrete data used to exercise the statements -/

namespace Robomongo

/-- Modelled from the spec: `MongoFunction` (MongoFunction.h is not part of the
sources at hand): a document-backed entity with a name and a body (code text). -/
structure MongoFunction where
  name : String
  code : String
deriving DecidableEq, Repr

/-- Modelled from the spec: the construction and serialisation contract of
`MongoFunction`: construction fails when the underlying document lacks the name
(`_id`) or the body (`value`) as text; `toBson` writes both fields back. -/
def mongoFunctionOps : MongoFunctionOps MongoFunction where
  construct := fun obj =>
    match obj.getField "_id", obj.getField "value" with
    | BSONElement.field ⟨_, BSONValue.str n⟩, BSONElement.field ⟨_, BSONValue.str v⟩ =>
      Except.ok ⟨n, v⟩
    | _, _ => Except.error ⟨ErrorKind.invalidArgument, "MongoFunction: missing field"⟩
  name := fun f => f.name
  toBson := fun f => [⟨"_id", BSONValue.str f.name⟩, ⟨"value", BSONValue.str f.code⟩]

/-- A connection fault: inserts into `admin.temp` are refused. -/
def sampleFaults : Faults MemState := fun _ call =>
  match call with
  | Call.insert ns _ =>
    if ns = "admin.temp" then some ⟨ErrorKind.commandFailure, "not authorized"⟩ else none
  | _ => none

/-- A database `test` holding the collection `test.coll` with one document, one
index on it, and two stored functions. -/
def sampleState : MemState :=
  ⟨[("test.coll", [[⟨"_id", BSONValue.num 1⟩, ⟨"name", BSONValue.str "a"⟩]]),
    ("test.system.indexes",
      [[⟨"v", BSONValue.num 1⟩, ⟨"name", BSONValue.str "a_1"⟩,
        ⟨"ns", BSONValue.str "test.coll"⟩, ⟨"key", BSONValue.other 3 [97, 1]⟩]]),
    ("test.system.js",
      [[⟨"_id", BSONValue.str "old"⟩, ⟨"value", BSONValue.str "function() \x7b\x7d"⟩],
       [⟨"_id", BSONValue.str "new"⟩, ⟨"value", BSONValue.str "function() \x7b return 1 \x7d"⟩]])],
   ""⟩

/-- The sample database behind a fresh handle. -/
def sampleConn : Conn MemState := ⟨sampleState, []⟩

end Robomongo

/-! ## Loop lemmas -/

namespace Robomongo

namespace MongoClient

theorem appendNames_eq (dbs acc : List String) : appendNames dbs acc = acc ++ dbs := by
  induction dbs generalizing acc with
  | nil => simp [appendNames]
  | cons i rest ih => simp [appendNames, ih]

theorem queryLoop_eq (cursor : List BSONObj) (docs : List MongoDocument) :
    queryLoop cursor docs = docs ++ cursor.map MongoDocument.mk := by
  induction cursor generalizing docs with
  | nil => simp [queryLoop]
  | cons o rest ih => simp [queryLoop, ih]

theorem getFunctionsLoop_eq {F : Type} (ops : MongoFunctionOps F) (cursor : List BSONObj)
    (acc : List F) :
    getFunctionsLoop ops cursor acc = acc ++ cursor.filterMap (constructed ops) := by
  induction cursor generalizing acc with
  | nil => simp [getFunctionsLoop]
  | cons o rest ih =>
    cases h : ops.construct o with
    | ok f => simp [getFunctionsLoop, constructed, h, ih]
    | error e => simp [getFunctionsLoop, constructed, h, ih]

theorem renameIndexLoop_eq (newName : String) (indexBson : List BSONField)
    (builder : BSONObjBuilder) :
    renameIndexLoop newName indexBson builder =
      builder ++ indexBson.map
        (fun e => if e.fieldName = "name" then ⟨"name", BSONValue.str newName⟩ else e) := by
  induction indexBson generalizing builder with
  | nil => simp [renameIndexLoop]
  | cons e rest ih =>
    by_cases h : e.fieldName = "name" <;>
      simp [renameIndexLoop, h, ih, BSONObjBuilder.append]

theorem isEmpty_iff (o : BSONObj) : o.isEmpty = true ↔ o = [] := by
  cases o <;> simp [BSONObj.isEmpty, BSONObj.nFields]

/-! ## The `QString` order -/

theorem unitsLe_total (a b : List Nat) : unitsLe a b = true ∨ unitsLe b a = true := by
  induction a generalizing b with
  | nil => left; simp [unitsLe]
  | cons x xs ih =>
    cases b with
    | nil => right; simp [unitsLe]
    | cons y ys =>
      rcases Nat.lt_trichotomy x y with h | h | h
      · left; simp [unitsLe, h]
      · subst h
        simpa [unitsLe] using ih ys
      · right; simp [unitsLe, h]

theorem unitsLe_trans (a b c : List Nat) (hab : unitsLe a b = true) (hbc : unitsLe b c = true) :
    unitsLe a c = true := by
  induction a generalizing b c with
  | nil => simp [unitsLe]
  | cons x xs ih =>
    cases b with
    | nil => simp [unitsLe] at hab
    | cons y ys =>
      cases c with
      | nil => simp [unitsLe] at hbc
      | cons z zs =>
        simp only [unitsLe] at hab hbc ⊢
        by_cases hxy : x < y
        · by_cases hyz : y < z
          · have : x < z := by omega
            simp [this]
          · by_cases hzy : z < y
            · simp [hyz, hzy] at hbc
            · have : x < z := by omega
              simp [this]
        · by_cases hyx : y < x
          · simp [hxy, hyx] at hab
          · have hxy' : x = y := by omega
            subst hxy'
            simp only [hxy, if_false] at hab
            by_cases hxz : x < z
            · simp [hxz]
            · by_cases hzx : z < x
              · simp [hxz, hzx] at hbc
              · simp only [hxz, hzx, if_false] at hbc ⊢
                exact ih ys zs hab hbc

/-- The code units of the text `U+1F600` start with a surrogate, so as a `QString`
it sorts before `U+FF5E`, although its code point is the larger one. -/
theorem sort_supplementary_plane :
    sort [String.mk [Char.ofNat 0xFF5E], String.mk [Char.ofNat 0x1F600]] =
      [String.mk [Char.ofNat 0x1F600], String.mk [Char.ofNat 0xFF5E]] ∧
    sort ["b", "a", "B", "ab"] = ["B", "a", "ab", "b"] := by
  constructor <;> decide

/-! ## Listing names -/

/-- C7: `getDatabaseNames` and `getCollectionNames` return, for every sequence of
names the connection hands back, a sequence that is ascending in the
case-sensitive ordinal order of `QString` (strings compared code unit by code
unit, by numeric value) and that is a permutation of those names (nothing added,
dropped or merged); each issues the one listing call and leaves the connection
state alone. -/
theorem names_sorted_perm {σ : Type} (c : DBClientBase σ) (s : Conn σ) (dbname : String) :
    List.Sorted (fun a b : String => unitsLe (utf16 a.toList) (utf16 b.toList) = true)
      (getDatabaseNames c s).1 ∧
    List.Perm (getDatabaseNames c s).1 (c.getDatabaseNames s.state) ∧
    List.Sorted (fun a b : String => unitsLe (utf16 a.toList) (utf16 b.toList) = true)
      (getCollectionNames c s dbname).1 ∧
    List.Perm (getCollectionNames c s dbname).1 (c.getCollectionNames s.state dbname) ∧
    (getDatabaseNames c s).2 = ⟨s.state, s.log ++ [Call.getDatabaseNames]⟩ ∧
    (getCollectionNames c s dbname).2 = ⟨s.state, s.log ++ [Call.getCollectionNames dbname]⟩ := by
  haveI : IsTotal String qstringLe := ⟨fun a b => unitsLe_total _ _⟩
  haveI : IsTrans String qstringLe := ⟨fun a b c hab hbc => unitsLe_trans _ _ _ hab hbc⟩
  have hsorted : ∀ l : List String, List.Sorted qstringLe (sort l) :=
    fun l => List.sorted_insertionSort qstringLe l
  refine ⟨hsorted _, ?_, hsorted _, ?_, rfl, rfl⟩
  · simpa [getDatabaseNames, sort, appendNames_eq] using
      List.perm_insertionSort qstringLe (c.getDatabaseNames s.state)
  · simpa [getCollectionNames, sort, appendNames_eq] using
      List.perm_insertionSort qstringLe (c.getCollectionNames s.state dbname)

/-! ## Listing functions -/

/-- C9: `getFunctions` always returns a list (no exception of the `MongoFunction`
constructor leaves it): exactly the functions constructed from the documents the
cursor over `<db>.system.js` yields for which construction succeeds, in cursor
order; documents whose construction raises are skipped, so the result is an
order-preserving subsequence, and the full list when every document constructs. -/
theorem getFunctions_skips_failures {σ F : Type} (ops : MongoFunctionOps F)
    (c : DBClientBase σ) (s : Conn σ) (dbName : String) :
    (getFunctions ops c s dbName).1 =
      (c.query s.state (MongoNamespace.toString ⟨dbName, "system.js"⟩) ⟨[]⟩ 0 0 none 0 0).filterMap
        (fun o => match ops.construct o with
          | Except.ok f => some f
          | Except.error _ => none) ∧
    List.Sublist ((getFunctions ops c s dbName).1.map Except.ok)
      ((c.query s.state (MongoNamespace.toString ⟨dbName, "system.js"⟩) ⟨[]⟩ 0 0 none 0 0).map
        ops.construct) ∧
    ((∀ o ∈ c.query s.state (MongoNamespace.toString ⟨dbName, "system.js"⟩) ⟨[]⟩ 0 0 none 0 0,
        ∃ f, ops.construct o = Except.ok f) →
      (getFunctions ops c s dbName).1.map Except.ok =
        (c.query s.state (MongoNamespace.toString ⟨dbName, "system.js"⟩) ⟨[]⟩ 0 0 none 0 0).map
          ops.construct) ∧
    (getFunctions ops c s dbName).2 =
      ⟨s.state, s.log ++
        [Call.query (MongoNamespace.toString ⟨dbName, "system.js"⟩) ⟨[]⟩ 0 0 none 0 0]⟩ := by
  have hval : (getFunctions ops c s dbName).1 =
      (c.query s.state (MongoNamespace.toString ⟨dbName, "system.js"⟩) ⟨[]⟩ 0 0 none 0
        0).filterMap (constructed ops) := by
    simp [getFunctions, getFunctionsLoop_eq]
  have hsub : ∀ l : List BSONObj,
      List.Sublist ((l.filterMap (constructed ops)).map Except.ok) (l.map ops.construct) := by
    intro l
    induction l with
    | nil => simp
    | cons o rest ih =>
      cases h : ops.construct o with
      | ok f => simpa [List.filterMap_cons, constructed, h] using ih
      | error e =>
        simpa [List.filterMap_cons, constructed, h] using List.Sublist.cons _ ih
  have hall : ∀ l : List BSONObj, (∀ o ∈ l, ∃ f, ops.construct o = Except.ok f) →
      (l.filterMap (constructed ops)).map Except.ok = l.map ops.construct := by
    intro l
    induction l with
    | nil => simp
    | cons o rest ih =>
      intro h
      obtain ⟨f, hf⟩ := h o (List.mem_cons_self _ _)
      have := ih (fun o ho => h o (List.mem_cons_of_mem _ ho))
      simp [List.filterMap_cons, constructed, hf, this]
  refine ⟨?_, ?_, ?_, rfl⟩
  · exact hval
  · rw [hval]; exact hsub _
  · intro h; rw [hval]; exact hall _ h

/-! ## Querying -/

/-- C1: `query` hands the connection's query primitive the limit 50 when the
requested limit is 0 or exceeds 51 and the requested limit itself otherwise, and
returns one document per document the cursor yields.  Hence, over a connection
whose cursor yields at most `limit` documents for a positive limit, a request
with limit 0 or above 51 (such as 200) returns at most 50 documents and a request
with a limit from 1 to 51 (such as 10) returns at most that many. -/
theorem query_limit_cap {σ : Type} (c : DBClientBase σ)
    (hcap : ∀ st ns q limit skip fields options batchSize, 0 < limit →
      ((c.query st ns q limit skip fields options batchSize).length : Int) ≤ limit)
    (s : Conn σ) (info : MongoQueryInfo) :
    (query c s info).2 = ⟨s.state, s.log ++
      [Call.query (MongoNamespace.toString ⟨info.databaseName, info.collectionName⟩) info.query
        (if info.limit = 0 ∨ info.limit > 51 then 50 else info.limit) info.skip
        (if info.fields.nFields ≠ 0 then some info.fields else none)
        info.options info.batchSize]⟩ ∧
    (query c s info).1 =
      (c.query s.state (MongoNamespace.toString ⟨info.databaseName, info.collectionName⟩)
        info.query (if info.limit = 0 ∨ info.limit > 51 then 50 else info.limit) info.skip
        (if info.fields.nFields ≠ 0 then some info.fields else none)
        info.options info.batchSize).map MongoDocument.mk ∧
    (info.limit = 0 ∨ 51 < info.limit → (query c s info).1.length ≤ 50) ∧
    (0 < info.limit → info.limit ≤ 51 → ((query c s info).1.length : Int) ≤ info.limit) ∧
    (info.limit = 0 → (query c s info).1.length ≤ 50) ∧
    (info.limit = 200 → (query c s info).1.length ≤ 50) ∧
    (info.limit = 10 → (query c s info).1.length ≤ 10) := by
  have hval : (query c s info).1 =
      (c.query s.state (MongoNamespace.toString ⟨info.databaseName, info.collectionName⟩)
        info.query (if info.limit = 0 ∨ info.limit > 51 then 50 else info.limit) info.skip
        (if info.fields.nFields ≠ 0 then some info.fields else none)
        info.options info.batchSize).map MongoDocument.mk := by
    simp [query, queryLoop_eq, queryLimit]
  have hbig : info.limit = 0 ∨ 51 < info.limit → (query c s info).1.length ≤ 50 := by
    intro h
    rw [hval, List.length_map, if_pos h]
    have := hcap s.state (MongoNamespace.toString ⟨info.databaseName, info.collectionName⟩)
      info.query 50 info.skip (if info.fields.nFields ≠ 0 then some info.fields else none)
      info.options info.batchSize (by norm_num)
    exact_mod_cast this
  have hsmall : 0 < info.limit → info.limit ≤ 51 →
      ((query c s info).1.length : Int) ≤ info.limit := by
    intro h0 h51
    have hn : ¬ (info.limit = 0 ∨ info.limit > 51) := by omega
    rw [hval, List.length_map, if_neg hn]
    exact hcap _ _ _ _ _ _ _ _ h0
  refine ⟨rfl, hval, hbig, hsmall, fun h => hbig (Or.inl h), fun h => hbig (Or.inr (by omega)),
    fun h => ?_⟩
  have := hsmall (by omega) (by omega)
  omega

/-! ## Saving a document -/

/-- C2: for every document without an `_id` field, and every database and
collection name, `saveDocument` fails with an `InvalidArgument` error and
performs no write: it leaves at the builder's rejection of the end-of-object
element, before the `update`, so no call is issued (the log is unchanged) and
the connection state is unchanged. -/
theorem saveDocument_without_id {σ : Type} (c : DBClientBase σ) (s : Conn σ)
    (obj : BSONObj) (db collection : String) (hid : obj.getField "_id" = BSONElement.eoo) :
    (∃ e : Exception, (saveDocument c s obj db collection).1 = Except.error e ∧
      e.kind = ErrorKind.invalidArgument) ∧
    (saveDocument c s obj db collection).2 = s ∧
    (saveDocument c s obj db collection).2.log = s.log ∧
    (saveDocument c s obj db collection).2.state = s.state := by
  have hrun : saveDocument c s obj db collection =
      (Except.error ⟨ErrorKind.invalidArgument, "assertion !e.eoo()"⟩, s) := by
    simp [saveDocument, hid, BSONObjBuilder.appendElement]
  rw [hrun]
  exact ⟨⟨_, rfl, rfl⟩, rfl, rfl, rfl⟩

/-- C2, witness: the document `{name: "b"}` saved into `test.coll` of the sample
database. -/
theorem saveDocument_without_id_witness :
    BSONObj.getField [⟨"name", BSONValue.str "b"⟩] "_id" = BSONElement.eoo ∧
    (saveDocument memClient sampleConn [⟨"name", BSONValue.str "b"⟩] "test" "coll").2 =
      sampleConn :=
  ⟨by decide,
    (saveDocument_without_id memClient sampleConn [⟨"name", BSONValue.str "b"⟩] "test" "coll"
      (by decide)).2.1⟩

/-- A document that has an `_id` is saved: one `update` with the filter
`{_id: <that element>}`, the document, upsert = true and multi = false. -/
theorem saveDocument_with_id {σ : Type} (c : DBClientBase σ) (s : Conn σ)
    (obj : BSONObj) (db collection : String) (f : BSONField)
    (hid : obj.getField "_id" = BSONElement.field f) :
    saveDocument c s obj db collection =
      (Except.ok (),
        ⟨c.update s.state (MongoNamespace.toString ⟨db, collection⟩) ⟨[f]⟩ obj true false,
          s.log ++
            [Call.update (MongoNamespace.toString ⟨db, collection⟩) ⟨[f]⟩ obj true false]⟩) := by
  simp [saveDocument, hid, BSONObjBuilder.appendElement, BSONObjBuilder.append,
    BSONObjBuilder.obj, Conn.step]

/-! ## Dropping an index -/

/-- C6: `deleteIndexFromCollection` issues `dropIndex` unconditionally and raises
nothing, but it returns no value: the result is never the boolean `true`. -/
theorem deleteIndexFromCollection_returns_nothing {σ : Type} (c : DBClientBase σ) (s : Conn σ)
    (collection : MongoCollectionInfo) (indexName : String) :
    deleteIndexFromCollection c s collection indexName =
      (Except.ok none,
        ⟨c.dropIndex s.state collection.ns.toString indexName,
          s.log ++ [Call.dropIndex collection.ns.toString indexName]⟩) ∧
    (deleteIndexFromCollection c s collection indexName).1 ≠ Except.ok (some true) := by
  constructor
  · rfl
  · simp [deleteIndexFromCollection]

/-! ## Creating an index -/

/-- C10: the last flag of `ensureIndex` (dropDuplicates) has no effect: two
invocations that differ only in it have the same outcome, and when the key text
parses the one call issued is the `ensureIndex` primitive on the collection's
namespace with the parsed keys, `unique`, the name, cache = true and `backGround`. -/
theorem ensureIndex_ignores_dropDuplicates {σ : Type} (lib : BsonLib) (c : DBClientBase σ)
    (s : Conn σ) (collection : MongoCollectionInfo) (name request : String)
    (unique backGround d1 d2 : Bool) :
    ensureIndex lib c s collection name request unique backGround d1 =
      ensureIndex lib c s collection name request unique backGround d2 ∧
    (∀ obj, lib.fromjson request = Except.ok obj →
      ensureIndex lib c s collection name request unique backGround d1 =
        (Except.ok (),
          ⟨c.ensureIndex s.state collection.ns.toString obj unique name true backGround,
            s.log ++
              [Call.ensureIndex collection.ns.toString obj unique name true backGround]⟩)) ∧
    (∀ e, lib.fromjson request = Except.error e →
      ensureIndex lib c s collection name request unique backGround d1 = (Except.error e, s)) := by
  refine ⟨rfl, ?_, ?_⟩
  · intro obj h
    simp [ensureIndex, h, Conn.step]
  · intro e h
    simp [ensureIndex, h]

/-! ## Facts about the reference connection -/

theorem memClient_exists_dropCollection (st : MemState) (ns : String) :
    memClient.exists (memClient.dropCollection st ns) ns = false := by
  simp [memClient]

theorem memClient_query_length (st : MemState) (ns : String) (q : Query) (limit skip : Int)
    (fields : Option BSONObj) (options batchSize : Int) (h : 0 < limit) :
    ((memClient.query st ns q limit skip fields options batchSize).length : Int) ≤ limit := by
  have h0 : limit ≠ 0 := by omega
  simp only [memClient, h0, if_false, List.length_take]
  omega

/-! ## Renaming a stored function -/

/-- C3: with a non-empty `existingFunctionName` different from the function's
name, `createFunction` first issues the insert of the new document into
`<db>.system.js`, then reads `getLastError`; the remove of `{_id:
existingFunctionName}` is issued exactly when that error text is empty.  When the
insert fails no remove is issued: the connection is left in the state the insert
produced, so a lookup of the old-named document answers what it answered right
after the insert, and what it answered before the call whenever the failed insert
did not disturb that lookup. -/
theorem createFunction_rename_order {σ F : Type} (ops : MongoFunctionOps F) (c : DBClientBase σ)
    (s : Conn σ) (dbName : String) (fn : F) (existingFunctionName : String)
    (hne : existingFunctionName ≠ "") (hdiff : existingFunctionName ≠ ops.name fn) :
    (createFunction ops c s dbName fn existingFunctionName).1 = Except.ok () ∧
    (c.getLastError
        (c.insert s.state (MongoNamespace.toString ⟨dbName, "system.js"⟩) (ops.toBson fn)) = "" →
      (createFunction ops c s dbName fn existingFunctionName).2 =
        ⟨c.remove
            (c.insert s.state (MongoNamespace.toString ⟨dbName, "system.js"⟩) (ops.toBson fn))
            (MongoNamespace.toString ⟨dbName, "system.js"⟩)
            ⟨[⟨"_id", BSONValue.str existingFunctionName⟩]⟩ true,
          s.log ++
            [Call.insert (MongoNamespace.toString ⟨dbName, "system.js"⟩) (ops.toBson fn),
             Call.getLastError,
             Call.remove (MongoNamespace.toString ⟨dbName, "system.js"⟩)
               ⟨[⟨"_id", BSONValue.str existingFunctionName⟩]⟩ true]⟩) ∧
    (c.getLastError
        (c.insert s.state (MongoNamespace.toString ⟨dbName, "system.js"⟩) (ops.toBson fn)) ≠ "" →
      (createFunction ops c s dbName fn existingFunctionName).2 =
        ⟨c.insert s.state (MongoNamespace.toString ⟨dbName, "system.js"⟩) (ops.toBson fn),
          s.log ++
            [Call.insert (MongoNamespace.toString ⟨dbName, "system.js"⟩) (ops.toBson fn),
             Call.getLastError]⟩ ∧
      c.findOne (createFunction ops c s dbName fn existingFunctionName).2.state
          (MongoNamespace.toString ⟨dbName, "system.js"⟩)
          ⟨[⟨"_id", BSONValue.str existingFunctionName⟩]⟩ =
        c.findOne
          (c.insert s.state (MongoNamespace.toString ⟨dbName, "system.js"⟩) (ops.toBson fn))
          (MongoNamespace.toString ⟨dbName, "system.js"⟩)
          ⟨[⟨"_id", BSONValue.str existingFunctionName⟩]⟩ ∧
      (c.findOne
          (c.insert s.state (MongoNamespace.toString ⟨dbName, "system.js"⟩) (ops.toBson fn))
          (MongoNamespace.toString ⟨dbName, "system.js"⟩)
          ⟨[⟨"_id", BSONValue.str existingFunctionName⟩]⟩ =
        c.findOne s.state (MongoNamespace.toString ⟨dbName, "system.js"⟩)
          ⟨[⟨"_id", BSONValue.str existingFunctionName⟩]⟩ →
        c.findOne (createFunction ops c s dbName fn existingFunctionName).2.state
            (MongoNamespace.toString ⟨dbName, "system.js"⟩)
            ⟨[⟨"_id", BSONValue.str existingFunctionName⟩]⟩ =
          c.findOne s.state (MongoNamespace.toString ⟨dbName, "system.js"⟩)
            ⟨[⟨"_id", BSONValue.str existingFunctionName⟩]⟩)) := by
  have he : existingFunctionName.isEmpty = false := by
    cases h : existingFunctionName.isEmpty with
    | false => rfl
    | true => exact absurd ((String.isEmpty_iff _).mp h) hne
  refine ⟨?_, ?_, ?_⟩
  · simp only [createFunction, he, if_neg hdiff]
    split
    · rfl
    · split <;> rfl
  · intro hok
    have hemp : (c.getLastError (c.insert s.state (MongoNamespace.toString ⟨dbName, "system.js"⟩)
        (ops.toBson fn))).isEmpty = true := by rw [hok]; rfl
    simp [createFunction, he, if_neg hdiff, Conn.step, Conn.read, hemp, BSONObjBuilder.append,
      BSONObjBuilder.obj]
  · intro hfail
    have hemp : (c.getLastError (c.insert s.state (MongoNamespace.toString ⟨dbName, "system.js"⟩)
        (ops.toBson fn))).isEmpty = false := by
      cases h : (c.getLastError (c.insert s.state
          (MongoNamespace.toString ⟨dbName, "system.js"⟩) (ops.toBson fn))).isEmpty with
      | false => rfl
      | true => exact absurd ((String.isEmpty_iff _).mp h) hfail
    have hrun : (createFunction ops c s dbName fn existingFunctionName).2 =
        ⟨c.insert s.state (MongoNamespace.toString ⟨dbName, "system.js"⟩) (ops.toBson fn),
          s.log ++
            [Call.insert (MongoNamespace.toString ⟨dbName, "system.js"⟩) (ops.toBson fn),
             Call.getLastError]⟩ := by
      simp [createFunction, he, if_neg hdiff, Conn.step, Conn.read, hemp]
    refine ⟨hrun, by rw [hrun], fun hkeep => ?_⟩
    rw [hrun]
    exact hkeep

/-- C3, witness: in the sample database, saving the function `new` as a rename of
`old` fails on the insert (a document `new` exists already); no remove is issued
and `old` is still stored. -/
theorem createFunction_rename_order_witness :
    ("old" : String) ≠ "" ∧ ("old" : String) ≠ mongoFunctionOps.name ⟨"new", "1"⟩ ∧
    memClient.getLastError (memClient.insert sampleConn.state
      (MongoNamespace.toString ⟨"test", "system.js"⟩)
      (mongoFunctionOps.toBson ⟨"new", "1"⟩)) ≠ "" ∧
    (createFunction mongoFunctionOps memClient sampleConn "test" ⟨"new", "1"⟩ "old").2.log =
      [Call.insert "test.system.js" [⟨"_id", BSONValue.str "new"⟩, ⟨"value", BSONValue.str "1"⟩],
       Call.getLastError] ∧
    memClient.findOne
      (createFunction mongoFunctionOps memClient sampleConn "test" ⟨"new", "1"⟩ "old").2.state
      "test.system.js" ⟨[⟨"_id", BSONValue.str "old"⟩]⟩ =
        [⟨"_id", BSONValue.str "old"⟩, ⟨"value", BSONValue.str "function() \x7b\x7d"⟩] := by
  have h := createFunction_rename_order mongoFunctionOps memClient sampleConn "test"
    ⟨"new", "1"⟩ "old" (by decide) (by decide)
  have hfail : memClient.getLastError (memClient.insert sampleConn.state
      (MongoNamespace.toString ⟨"test", "system.js"⟩)
      (mongoFunctionOps.toBson ⟨"new", "1"⟩)) ≠ "" := by decide
  refine ⟨by decide, by decide, hfail, ?_, ?_⟩
  · rw [(h.2.2 hfail).1]; decide
  · rw [(h.2.2 hfail).1]; decide

/-! ## Renaming an index -/

/-- C4: when `findOne` on `<db>.system.indexes` with the filter `{name: oldName}`
returns the empty document, `renameIndexFromCollection` returns after that one
lookup: the connection state is unchanged and none of the calls it issued is a
`dropIndex` or an `insert`. -/
theorem renameIndex_absent_noop {σ : Type} (c : DBClientBase σ) (s : Conn σ)
    (collection : MongoCollectionInfo) (oldIndexName newIndexName : String)
    (habsent : c.findOne s.state
      (MongoNamespace.toString ⟨collection.ns.databaseName, "system.indexes"⟩)
      ⟨[⟨"name", BSONValue.str oldIndexName⟩]⟩ = []) :
    renameIndexFromCollection c s collection oldIndexName newIndexName =
      (Except.ok (),
        ⟨s.state, s.log ++
          [Call.findOne (MongoNamespace.toString ⟨collection.ns.databaseName, "system.indexes"⟩)
            ⟨[⟨"name", BSONValue.str oldIndexName⟩]⟩]⟩) ∧
    ∀ call ∈ (renameIndexFromCollection c s collection oldIndexName newIndexName).2.log.drop
        s.log.length,
      (∀ ns name, call ≠ Call.dropIndex ns name) ∧ (∀ ns obj, call ≠ Call.insert ns obj) := by
  have hrun : renameIndexFromCollection c s collection oldIndexName newIndexName =
      (Except.ok (),
        ⟨s.state, s.log ++
          [Call.findOne (MongoNamespace.toString ⟨collection.ns.databaseName, "system.indexes"⟩)
            ⟨[⟨"name", BSONValue.str oldIndexName⟩]⟩]⟩) := by
    have hq : c.findOne s.state
        (MongoNamespace.toString ⟨collection.ns.databaseName, "system.indexes"⟩)
        ⟨(BSONObjBuilder.append [] ⟨"name", BSONValue.str oldIndexName⟩).obj⟩ = [] := habsent
    simp only [renameIndexFromCollection, hq]
    rfl
  refine ⟨hrun, ?_⟩
  intro call hcall
  rw [hrun] at hcall
  simp only [List.drop_left, List.mem_singleton] at hcall
  subst hcall
  exact ⟨fun _ _ h => Call.noConfusion h, fun _ _ h => Call.noConfusion h⟩

/-- C4, witness: the sample database has no index named `zzz` on `test.coll`. -/
theorem renameIndex_absent_noop_witness :
    memClient.findOne sampleConn.state
      (MongoNamespace.toString ⟨"test", "system.indexes"⟩)
      ⟨[⟨"name", BSONValue.str "zzz"⟩]⟩ = [] ∧
    (renameIndexFromCollection memClient sampleConn ⟨⟨"test", "coll"⟩⟩ "zzz" "b_1").2.state =
      sampleState :=
  ⟨by decide,
    congrArg (fun r => r.2.state)
      (renameIndex_absent_noop memClient sampleConn ⟨⟨"test", "coll"⟩⟩ "zzz" "b_1"
        (by decide)).1⟩

/-- C5: when the lookup of `{name: oldName}` yields a non-empty document,
`renameIndexFromCollection` issues, after the lookup, `dropIndex` on the
collection with the old name and then the insert into `<db>.system.indexes` of a
rebuilt document that has as many fields as the original, the same field names in
the same order, the original element at every position whose field name is not
`name`, and the string `newName` at every position whose field name is `name`. -/
theorem renameIndex_rebuild {σ : Type} (c : DBClientBase σ) (s : Conn σ)
    (collection : MongoCollectionInfo) (oldIndexName newIndexName : String)
    (indexBson : BSONObj)
    (hfound : c.findOne s.state
      (MongoNamespace.toString ⟨collection.ns.databaseName, "system.indexes"⟩)
      ⟨[⟨"name", BSONValue.str oldIndexName⟩]⟩ = indexBson)
    (hne : indexBson ≠ []) :
    ∃ rebuilt : BSONObj,
      renameIndexFromCollection c s collection oldIndexName newIndexName =
        (Except.ok (),
          ⟨c.insert (c.dropIndex s.state collection.ns.toString oldIndexName)
              (MongoNamespace.toString ⟨collection.ns.databaseName, "system.indexes"⟩) rebuilt,
            s.log ++
              [Call.findOne
                 (MongoNamespace.toString ⟨collection.ns.databaseName, "system.indexes"⟩)
                 ⟨[⟨"name", BSONValue.str oldIndexName⟩]⟩,
               Call.dropIndex collection.ns.toString oldIndexName,
               Call.insert
                 (MongoNamespace.toString ⟨collection.ns.databaseName, "system.indexes"⟩)
                 rebuilt]⟩) ∧
      rebuilt.length = indexBson.length ∧
      rebuilt.map BSONField.fieldName = indexBson.map BSONField.fieldName ∧
      ∀ (i : Nat) (hi : i < indexBson.length),
        (indexBson[i].fieldName ≠ "name" → rebuilt[i]? = some indexBson[i]) ∧
        (indexBson[i].fieldName = "name" →
          rebuilt[i]? = some ⟨"name", BSONValue.str newIndexName⟩) := by
  refine ⟨indexBson.map
    (fun e => if e.fieldName = "name" then ⟨"name", BSONValue.str newIndexName⟩ else e),
    ?_, ?_, ?_, ?_⟩
  · have hq : c.findOne s.state
        (MongoNamespace.toString ⟨collection.ns.databaseName, "system.indexes"⟩)
        ⟨(BSONObjBuilder.append [] ⟨"name", BSONValue.str oldIndexName⟩).obj⟩ = indexBson :=
      hfound
    have hemp : BSONObj.isEmpty indexBson = false := by
      cases h : BSONObj.isEmpty indexBson with
      | false => rfl
      | true => exact absurd ((isEmpty_iff _).mp h) hne
    simp only [renameIndexFromCollection, hq, hemp, renameIndexLoop_eq]
    simp [Conn.step, Conn.read, BSONObjBuilder.append, BSONObjBuilder.obj]
  · simp
  · rw [List.map_map]
    apply List.map_congr_left
    intro e _
    by_cases h : e.fieldName = "name" <;> simp [h]
  · intro i hi
    constructor
    · intro h
      simp [List.getElem?_map, List.getElem?_eq_getElem hi, h]
    · intro h
      simp [List.getElem?_map, List.getElem?_eq_getElem hi, h]

/-- C5, witness: renaming the index `a_1` of `test.coll` to `b_1` in the sample
database. -/
theorem renameIndex_rebuild_witness :
    ∃ rebuilt : BSONObj,
      (renameIndexFromCollection memClient sampleConn ⟨⟨"test", "coll"⟩⟩ "a_1" "b_1").2.log =
        [Call.findOne "test.system.indexes" ⟨[⟨"name", BSONValue.str "a_1"⟩]⟩,
         Call.dropIndex "test.coll" "a_1",
         Call.insert "test.system.indexes" rebuilt] ∧
      rebuilt.length = 4 := by
  obtain ⟨rebuilt, hrun, hlen, -, -⟩ :=
    renameIndex_rebuild memClient sampleConn ⟨⟨"test", "coll"⟩⟩ "a_1" "b_1"
      [⟨"v", BSONValue.num 1⟩, ⟨"name", BSONValue.str "a_1"⟩,
        ⟨"ns", BSONValue.str "test.coll"⟩, ⟨"key", BSONValue.other 3 [97, 1]⟩]
      (by decide) (by decide)
  exact ⟨rebuilt, by rw [hrun]; rfl, hlen⟩

/-! ## Creating a database -/

/-- C8: over a connection on which a dropped collection no longer exists and on
which the three calls go through, and from a state in which `<db>.temp` does not
exist, two `createDatabase` calls in sequence both return without error; each
issues the existence check, the insert of `{_id: "temp"}` into `<db>.temp` and
the drop of `<db>.temp`, leaving the connection in the state the drop produced
from the state the insert produced; after each of them `<db>.temp` does not
exist. -/
theorem createDatabase_twice {σ : Type} (c : DBClientBase σ) (faults : Faults σ) (s : Conn σ)
    (dbName : String)
    (hlive : ∀ st,
      faults st (Call.exists (MongoNamespace.toString ⟨dbName, "temp"⟩)) = none ∧
      faults st (Call.insert (MongoNamespace.toString ⟨dbName, "temp"⟩)
        [⟨"_id", BSONValue.str "temp"⟩]) = none ∧
      faults st (Call.dropCollection (MongoNamespace.toString ⟨dbName, "temp"⟩)) = none)
    (hdrop : ∀ st ns, c.exists (c.dropCollection st ns) ns = false)
    (hfresh : c.exists s.state (MongoNamespace.toString ⟨dbName, "temp"⟩) = false) :
    createDatabase c faults s dbName =
      (Except.ok (),
        ⟨c.dropCollection
            (c.insert s.state (MongoNamespace.toString ⟨dbName, "temp"⟩)
              [⟨"_id", BSONValue.str "temp"⟩])
            (MongoNamespace.toString ⟨dbName, "temp"⟩),
          s.log ++
            [Call.exists (MongoNamespace.toString ⟨dbName, "temp"⟩),
             Call.insert (MongoNamespace.toString ⟨dbName, "temp"⟩)
               [⟨"_id", BSONValue.str "temp"⟩],
             Call.dropCollection (MongoNamespace.toString ⟨dbName, "temp"⟩)]⟩) ∧
    createDatabase c faults (createDatabase c faults s dbName).2 dbName =
      (Except.ok (),
        ⟨c.dropCollection
            (c.insert (createDatabase c faults s dbName).2.state
              (MongoNamespace.toString ⟨dbName, "temp"⟩) [⟨"_id", BSONValue.str "temp"⟩])
            (MongoNamespace.toString ⟨dbName, "temp"⟩),
          (createDatabase c faults s dbName).2.log ++
            [Call.exists (MongoNamespace.toString ⟨dbName, "temp"⟩),
             Call.insert (MongoNamespace.toString ⟨dbName, "temp"⟩)
               [⟨"_id", BSONValue.str "temp"⟩],
             Call.dropCollection (MongoNamespace.toString ⟨dbName, "temp"⟩)]⟩) ∧
    c.exists (createDatabase c faults s dbName).2.state
      (MongoNamespace.toString ⟨dbName, "temp"⟩) = false ∧
    c.exists (createDatabase c faults (createDatabase c faults s dbName).2 dbName).2.state
      (MongoNamespace.toString ⟨dbName, "temp"⟩) = false := by
  have hrun : ∀ t : Conn σ, c.exists t.state (MongoNamespace.toString ⟨dbName, "temp"⟩) = false →
      createDatabase c faults t dbName =
        (Except.ok (),
          ⟨c.dropCollection
              (c.insert t.state (MongoNamespace.toString ⟨dbName, "temp"⟩)
                [⟨"_id", BSONValue.str "temp"⟩])
              (MongoNamespace.toString ⟨dbName, "temp"⟩),
            t.log ++
              [Call.exists (MongoNamespace.toString ⟨dbName, "temp"⟩),
               Call.insert (MongoNamespace.toString ⟨dbName, "temp"⟩)
                 [⟨"_id", BSONValue.str "temp"⟩],
               Call.dropCollection (MongoNamespace.toString ⟨dbName, "temp"⟩)]⟩) := by
    intro t ht
    simp [createDatabase, ht, Conn.step, Conn.read, BSONObjBuilder.append, BSONObjBuilder.obj,
      (hlive _).1, (hlive _).2.1, (hlive _).2.2]
  have h1 := hrun s hfresh
  have hgone : c.exists (createDatabase c faults s dbName).2.state
      (MongoNamespace.toString ⟨dbName, "temp"⟩) = false := by
    rw [h1]; exact hdrop _ _
  have h2 := hrun (createDatabase c faults s dbName).2 hgone
  refine ⟨h1, h2, hgone, ?_⟩
  rw [h2]; exact hdrop _ _

/-- C8, witness: `createDatabase("temp_db")` twice on the sample database, over a
connection that refuses inserts into `admin.temp` only. -/
theorem createDatabase_twice_witness :
    memClient.exists sampleConn.state (MongoNamespace.toString ⟨"temp_db", "temp"⟩) = false ∧
    (createDatabase memClient sampleFaults
      (createDatabase memClient sampleFaults sampleConn "temp_db").2 "temp_db").1 =
      Except.ok () ∧
    memClient.exists (createDatabase memClient sampleFaults sampleConn "temp_db").2.state
      (MongoNamespace.toString ⟨"temp_db", "temp"⟩) = false ∧
    memClient.exists
      (createDatabase memClient sampleFaults
        (createDatabase memClient sampleFaults sampleConn "temp_db").2 "temp_db").2.state
      (MongoNamespace.toString ⟨"temp_db", "temp"⟩) = false :=
  have h := createDatabase_twice memClient sampleFaults sampleConn "temp_db"
    (fun _ => ⟨rfl, rfl, rfl⟩) memClient_exists_dropCollection (by decide)
  ⟨by decide, congrArg Prod.fst h.2.1, h.2.2.1, h.2.2.2⟩

/-- An exception of the connection leaves `createDatabase` at the call that threw:
when the insert of the sentinel is refused, the error is returned, no drop is
issued and the connection state is untouched. -/
theorem createDatabase_fault_propagates {σ : Type} (c : DBClientBase σ) (faults : Faults σ)
    (s : Conn σ) (dbName : String) (e : Exception)
    (hcheck : faults s.state (Call.exists (MongoNamespace.toString ⟨dbName, "temp"⟩)) = none)
    (hfresh : c.exists s.state (MongoNamespace.toString ⟨dbName, "temp"⟩) = false)
    (hfault : faults s.state (Call.insert (MongoNamespace.toString ⟨dbName, "temp"⟩)
      [⟨"_id", BSONValue.str "temp"⟩]) = some e) :
    createDatabase c faults s dbName =
      (Except.error e,
        ⟨s.state, s.log ++
          [Call.exists (MongoNamespace.toString ⟨dbName, "temp"⟩),
           Call.insert (MongoNamespace.toString ⟨dbName, "temp"⟩)
             [⟨"_id", BSONValue.str "temp"⟩]]⟩) := by
  simp [createDatabase, hcheck, hfresh, hfault, Conn.read, BSONObjBuilder.append,
    BSONObjBuilder.obj]

/-- On the sample connection `createDatabase("admin")` raises: the insert of the
sentinel is refused. -/
theorem createDatabase_admin_refused :
    (createDatabase memClient sampleFaults sampleConn "admin").1 =
      Except.error ⟨ErrorKind.commandFailure, "not authorized"⟩ := by
  rfl

/-- C1, witness: the reference connection caps its cursor at a positive limit; a
request on `test.coll` with limit 200. -/
theorem query_limit_cap_witness :
    (query memClient sampleConn ⟨"test", "coll", ⟨[]⟩, [], 200, 0, 0, 0⟩).2.log =
      [Call.query "test.coll" ⟨[]⟩ 50 0 none 0 0] ∧
    (query memClient sampleConn ⟨"test", "coll", ⟨[]⟩, [], 200, 0, 0, 0⟩).1.length ≤ 50 :=
  have h := query_limit_cap memClient
    (fun st ns q limit skip fields options batchSize hpos =>
      memClient_query_length st ns q limit skip fields options batchSize hpos)
    sampleConn ⟨"test", "coll", ⟨[]⟩, [], 200, 0, 0, 0⟩
  ⟨by rw [h.1]; decide, h.2.2.2.2.2.1 rfl⟩

end MongoClient

end Robomongo
